import Mathlib

/-!
A shallow embedding of the `ftp` client (`src/main.go`).


Go strings are byte sequences; they are modelled as lists of byte values.
Go's `int` is taken to be 64 bits wide (the `amd64`/`arm64` targets): values
are mathematical integers and the single place where the source can overflow
(`firstOctet*256 + secondOctet`) is wrapped explicitly.

Effects are made explicit.  A call of `Cmd` receives the outcome of its one
`Write` and the bytes its `bufio.Reader` obtains from the control channel;
`Dial` receives the outcome of `net.Dial` and of the greeting `Read`; the copy
loop of `DownloadFile` receives the successive results of `Read` on the data
connection.  Run-time panics (slicing or indexing out of range) are a separate
outcome, so that their absence is a statement and not an assumption.
-/

set_option linter.dupNamespace false
set_option maxRecDepth 100000

namespace Ftp

/-! ## Strings, errors and outcomes -/

/-- One byte of a Go string. -/
abbrev Byte := Nat

/-- A Go string: a sequence of bytes. -/
abbrev GoString := List Nat

/-- The bytes of an ASCII string literal of the source. -/
def ascii (s : String) : GoString := s.toList.map Char.toNat

/-- An error value produced by the environment (network or file system):
`io.EOF`, or any other error, identified by its text. -/
inductive IOError where
  | EOF
  | other (msg : GoString)
  deriving DecidableEq, Repr

/-- The method `Error()` of an environment error. -/
def IOError.Error : IOError → GoString
  | .EOF => ascii "EOF"
  | .other msg => msg

/-- A Go `error` value as this package can return it: an environment error
passed through, a value made by `errors.New`, or the `*strconv.NumError` of
`strconv.Atoi` (with the offending text and whether the cause is
`ErrRange` rather than `ErrSyntax`). -/
inductive Error where
  | io (e : IOError)
  | New (msg : GoString)
  | NumError (num : GoString) (outOfRange : Bool)
  deriving DecidableEq, Repr

/-- The method `Error()` on the errors whose text this package reads: those
of the environment and those made by `errors.New`. The package never asks a
`NumError` for its text (that text needs `strconv.Quote`, which is not
modelled), and the empty string stands in that unused case. -/
def Error.Error : Error → GoString
  | .io e => e.Error
  | .New msg => msg
  | .NumError _ _ => []

/-- The result of running a Go function: it returns, or it panics. -/
inductive Outcome (α : Type) where
  | ret (a : α)
  | panic
  deriving DecidableEq, Repr

/-- The line terminator, `var CRLF = "\r\n"`. -/
def CRLF : GoString := [13, 10]

/-- A decimal digit, `'0' <= b && b <= '9'`; the regexp class `[0-9]`. -/
def isDigit (b : Byte) : Bool := decide (48 ≤ b) && decide (b ≤ 57)

/-- Go's conversion `int(x)` / arithmetic on `int`: the value modulo `2^64`,
read as a signed 64-bit integer. -/
def wrap64 (x : Int) : Int := (x + 2 ^ 63) % 2 ^ 64 - 2 ^ 63

/-- The verb `%d` of `fmt.Sprintf` on an `int`. -/
def fmtInt (i : Int) : GoString :=
  if i < 0 then 45 :: (Nat.toDigits 10 i.natAbs).map Char.toNat
  else (Nat.toDigits 10 i.natAbs).map Char.toNat

/-- The slice expression `s[lo:hi]` of a string; out of range it panics. -/
def slice (s : GoString) (lo hi : Nat) : Outcome GoString :=
  if lo ≤ hi ∧ hi ≤ s.length then .ret ((s.take hi).drop lo) else .panic

/-! ## `strconv.Atoi` (standard library, 64-bit `int`) -/

/-- The digit loop of `strconv.ParseUint(s, 10, 64)`, started with the
accumulator `n`: the first invalid byte gives a syntax error (value 0), the
first overflow of 64 bits gives a range error (value `2^64 - 1`). The boolean
of an error tells whether it is the range error. -/
def parseUintLoop : GoString → Nat → Nat × Option Bool
  | [], n => (n, none)
  | c :: cs, n =>
    if !isDigit c then (0, some false)
    else if n ≥ (2 ^ 64 - 1) / 10 + 1 then (2 ^ 64 - 1, some true)
    else
      let n1 := n * 10 + (c - 48)
      if n1 > 2 ^ 64 - 1 then (2 ^ 64 - 1, some true)
      else parseUintLoop cs n1

/-- Model of `strconv.ParseUint(s, 10, 64)`. -/
def ParseUint (s : GoString) : Nat × Option Bool :=
  if s = [] then (0, some false) else parseUintLoop s 0

/-- Model of `strconv.ParseInt(s, 10, 0)` with 64-bit `int`. -/
def ParseInt (s : GoString) : Int × Option Error :=
  match s with
  | [] => (0, some (.NumError s false))
  | c :: cs =>
    let neg := decide (c = 45)
    let body := if c = 43 ∨ c = 45 then cs else s
    match ParseUint body with
    | (_, some false) => (0, some (.NumError s false))
    | (un, _) =>
      if !neg && decide (un ≥ 2 ^ 63) then (2 ^ 63 - 1, some (.NumError s true))
      else if neg && decide (un > 2 ^ 63) then (-(2 ^ 63), some (.NumError s true))
      else (if neg then -(un : Int) else (un : Int), none)

/-- The digit loop of the fast path of `strconv.Atoi`; `none` is its syntax
error. -/
def atoiFastLoop : GoString → Int → Option Int
  | [], n => some n
  | ch :: cs, n => if !isDigit ch then none else atoiFastLoop cs (n * 10 + ((ch : Int) - 48))

/-- Model of `strconv.Atoi(s)`: the value and the error, as Go returns both.
Strings of 1 to 18 bytes take the fast path, all others go through
`ParseInt`. -/
def Atoi (s : GoString) : Int × Option Error :=
  match s with
  | [] => ParseInt s
  | c :: cs =>
    if s.length < 19 then
      let body := if c = 45 ∨ c = 43 then cs else s
      if body.length < 1 then (0, some (.NumError s false))
      else
        match atoiFastLoop body 0 with
        | none => (0, some (.NumError s false))
        | some n => (if c = 45 then -n else n, none)
    else ParseInt s

/-! ## `checkResponseCode` -/

/-- The function `checkResponseCode(expectCode, code int) error`; `none` is
`nil`. Go's `/` on integers truncates toward zero. -/
def checkResponseCode (expectCode code : Int) : Option Error :=
  if (1 ≤ expectCode ∧ expectCode < 10 ∧ code.tdiv 100 ≠ expectCode) ∨
      (10 ≤ expectCode ∧ expectCode < 100 ∧ code.tdiv 10 ≠ expectCode) ∨
      (100 ≤ expectCode ∧ expectCode < 1000 ∧ code ≠ expectCode) then
    some (.New (ascii "Bad response from server. Expected: " ++ fmtInt expectCode ++
      ascii ", Got: " ++ fmtInt code))
  else none

/-! ## `Connection.Cmd` -/

/-- The call `regex.MatchString(ln)` for the pattern `[0-9][0-9][0-9] ` of
`Cmd`: the pattern is not anchored, so it matches when three digits and a
space occur anywhere in the line. -/
def MatchString : GoString → Bool
  | a :: b :: c :: d :: rest =>
    (isDigit a && isDigit b && isDigit c && decide (d = 32)) || MatchString (b :: c :: d :: rest)
  | _ => false

/-- The successive results of `reader.ReadString(10)` that carry no error: the
complete lines of the stream, each with its final line feed. Bytes after the
last line feed come back together with the error of the stream and are
dropped by `Cmd`. -/
def readLines : GoString → List GoString
  | [] => []
  | b :: rest =>
    if b = 10 then [b] :: readLines rest
    else
      match readLines rest with
      | [] => []
      | ln :: lns => (b :: ln) :: lns

/-- What one call of `Cmd` meets on the control channel: the result of its
`Write`, the bytes its reader obtains, and the error the reader returns once
these bytes are used up (`io.EOF` when the server closes the connection). A
call that returns has read finitely many bytes, so a finite stream ended by
an error describes every call that returns. -/
structure CmdEnv where
  writeErr : Option IOError
  input : GoString
  readErr : IOError
  deriving DecidableEq, Repr

/-- The read loop of `Cmd` over the lines still to come, with the response
accumulated so far: the error of a failed `ReadString`, or the response at
the `break`. -/
def cmdLoop (readErr : IOError) : List GoString → GoString → Except IOError GoString
  | [], _ => .error readErr
  | ln :: lns, response =>
    let response := response ++ ln
    if MatchString ln then .ok response else cmdLoop readErr lns response

/-- The values `(code, response, err)` returned by `Cmd`. -/
structure CmdReturn where
  code : Int
  response : GoString
  err : Option Error
  deriving DecidableEq, Repr

/-- The result of a call of `Cmd`: the argument of its call of
`c.control.Write`, and its outcome. -/
structure CmdResult where
  written : GoString
  out : Outcome CmdReturn
  deriving DecidableEq, Repr

/-- The method `(c *Connection) Cmd(command, arg string)`. -/
def Cmd (command arg : GoString) (env : CmdEnv) : CmdResult :=
  let formattedCommand := command ++ ascii " " ++ arg ++ CRLF
  match env.writeErr with
  | some err => ⟨formattedCommand, .ret ⟨0, [], some (.io err)⟩⟩
  | none =>
    match cmdLoop env.readErr (readLines env.input) [] with
    | .error err => ⟨formattedCommand, .ret ⟨0, [], some (.io err)⟩⟩
    | .ok response =>
      match slice response 0 3 with
      | .panic => ⟨formattedCommand, .panic⟩
      | .ret head =>
        match Atoi head with
        | (_, some err) => ⟨formattedCommand, .ret ⟨0, response, some err⟩⟩
        | (code, none) => ⟨formattedCommand, .ret ⟨code, response, none⟩⟩

/-! ## `Connection.Login` and `Connection.Logout` -/

/-- The result of `Login` or `Logout`: the arguments of the calls of
`c.control.Write` in order, whether the control channel was closed, and the
returned error. -/
structure SessionResult where
  writes : List GoString
  closed : Bool
  out : Outcome (Option Error)
  deriving DecidableEq, Repr

/-- The method `(c *Connection) Login(user, password string)`; `envUser` and
`envPass` are what the two calls of `Cmd` meet. The error of the first call is
overwritten by the second assignment to `err`. -/
def Login (user password : GoString) (envUser envPass : CmdEnv) : SessionResult :=
  if user = [] then
    ⟨[], false, .ret (some (.New (ascii "FTP Connection Error: User can not be blank!")))⟩
  else if password = [] then
    ⟨[], false, .ret (some (.New (ascii "FTP Connection Error: Password can not be blank!")))⟩
  else
    let r1 := Cmd (ascii "USER") user envUser
    match r1.out with
    | .panic => ⟨[r1.written], false, .panic⟩
    | .ret _ =>
      let r2 := Cmd (ascii "PASS") password envPass
      match r2.out with
      | .panic => ⟨[r1.written, r2.written], false, .panic⟩
      | .ret v2 => ⟨[r1.written, r2.written], false, .ret v2.err⟩

/-- The method `(c *Connection) Logout()`; `closeErr` is the result of
`c.control.Close()`. -/
def Logout (env : CmdEnv) (closeErr : Option IOError) : SessionResult :=
  let r := Cmd (ascii "QUIT") [] env
  match r.out with
  | .panic => ⟨[r.written], false, .panic⟩
  | .ret v =>
    match v.err with
    | some err => ⟨[r.written], false, .ret (some err)⟩
    | none =>
      match closeErr with
      | some err => ⟨[r.written], true, .ret (some (.io err))⟩
      | none => ⟨[r.written], true, .ret none⟩

/-! ## `extractDataPort` -/

/-- One factor `[0-9]+` of the port pattern at the head of `s`: the longest
run of digits, which must not be empty, and what follows it. A shorter run
cannot be continued by the comma the pattern asks for next, so the choice of
the longest run loses no match. -/
def matchNumber (s : GoString) : Option (GoString × GoString) :=
  if s.takeWhile isDigit = [] then none
  else some (s.takeWhile isDigit, s.dropWhile isDigit)

/-- The literal `,` of the port pattern at the head of `s`. -/
def matchComma : GoString → Option GoString
  | 44 :: rest => some rest
  | _ => none

/-- The pattern `[0-9]+,[0-9]+,[0-9]+,[0-9]+,([0-9]+,[0-9]+)` matched at the
head of `s`: the text of the capture group. -/
def matchPortAt (s : GoString) : Option GoString :=
  match matchNumber s with
  | none => none
  | some (_, s1) =>
  match matchComma s1 with
  | none => none
  | some s2 =>
  match matchNumber s2 with
  | none => none
  | some (_, s3) =>
  match matchComma s3 with
  | none => none
  | some s4 =>
  match matchNumber s4 with
  | none => none
  | some (_, s5) =>
  match matchComma s5 with
  | none => none
  | some s6 =>
  match matchNumber s6 with
  | none => none
  | some (_, s7) =>
  match matchComma s7 with
  | none => none
  | some s8 =>
  match matchNumber s8 with
  | none => none
  | some (p1, s9) =>
  match matchComma s9 with
  | none => none
  | some s10 =>
  match matchNumber s10 with
  | none => none
  | some (p2, _) => some (p1 ++ 44 :: p2)

/-- The call `re.FindStringSubmatch(line)` for the port pattern, reduced to
what the caller uses: `none` for the empty result (no match), otherwise
`match[1]`, the capture group of the leftmost match. -/
def FindStringSubmatch : GoString → Option GoString
  | [] => none
  | b :: rest =>
    match matchPortAt (b :: rest) with
    | some g => some g
    | none => FindStringSubmatch rest

/-- The call `strings.Split(s, sep)` for a separator of one byte. -/
def Split (sep : Byte) : GoString → List GoString
  | [] => [[]]
  | b :: rest =>
    if b = sep then [] :: Split sep rest
    else
      match Split sep rest with
      | [] => [[b]]
      | part :: parts => (b :: part) :: parts

/-- The index expression `xs[i]`; out of range it panics. -/
def index (xs : List GoString) (i : Nat) : Outcome GoString :=
  match xs.get? i with
  | some x => .ret x
  | none => .panic

/-- The function `extractDataPort(line string) (port int, err error)`. The
pattern is a valid regular expression, so `regexp.Compile` returns no error
and the first `return 0, err` is never taken. The errors of both calls of
`Atoi` are discarded, as in the source. -/
def extractDataPort (line : GoString) : Outcome (Int × Option Error) :=
  match FindStringSubmatch line with
  | none => .ret (0, some (.New (ascii "Cannot find data port in server output: " ++ line)))
  | some group =>
    let octets := Split 44 group
    match index octets 0 with
    | .panic => .panic
    | .ret o0 =>
      match index octets 1 with
      | .panic => .panic
      | .ret o1 =>
        let firstOctet := (Atoi o0).1
        let secondOctet := (Atoi o1).1
        .ret (wrap64 (wrap64 (firstOctet * 256) + secondOctet), none)

/-! ## `hasPort` and `Dial` -/

/-- The call `strings.LastIndex(s, sep)` for a separator of one byte: the
index of its last occurrence, or -1. -/
def LastIndex (sep : Byte) : GoString → Int
  | [] => -1
  | b :: rest =>
    if LastIndex sep rest ≥ 0 then LastIndex sep rest + 1
    else if b = sep then 0 else -1

/-- The function `hasPort(s string) bool`: the last `:` lies after the last
`]`. -/
def hasPort (s : GoString) : Bool :=
  decide (LastIndex 58 s > LastIndex 93 s)

/-- The type `Connection`: the control channel (named by the address it was
dialed to) and the retained host name. -/
structure Connection where
  control : GoString
  hostname : GoString
  deriving DecidableEq, Repr

/-- What `Dial` meets on the network: the result of `net.Dial`, then the
bytes and the error of the single `Read` of the greeting. -/
structure DialEnv where
  dialErr : Option IOError
  greeting : GoString
  readErr : Option IOError
  deriving DecidableEq, Repr

/-- A network operation performed by `Dial`. -/
inductive NetOp where
  | dial (address : GoString)
  | read
  deriving DecidableEq, Repr

/-- The result of `Dial`: the network operations performed, in order, and the
returned pair; a `nil` connection is `none`. -/
structure DialResult where
  trace : List NetOp
  out : Outcome (Option Connection × Option Error)
  deriving DecidableEq, Repr

/-- The function `Dial(host string) (*Connection, error)`. The greeting is
read into a zeroed buffer of 1024 bytes, whose first three bytes are parsed
whatever the number of bytes read. -/
def Dial (host : GoString) (env : DialEnv) : DialResult :=
  if host = [] then
    ⟨[], .ret (none, some (.New (ascii "FTP Connection Error: Host can not be blank!")))⟩
  else if !hasPort host then
    ⟨[], .ret (none, some (.New (ascii "FTP Connection Error: Host must have a port! e.g. host:21")))⟩
  else
    match env.dialErr with
    | some err => ⟨[.dial host], .ret (none, some (.io err))⟩
    | none =>
      let n := min env.greeting.length 1024
      let welcomeMsg := env.greeting.take n ++ List.replicate (1024 - n) 0
      match env.readErr with
      | some err =>
        ⟨[.dial host, .read], .ret (none, some (.New (ascii
          "Couldn't read the server's initital connection information. Error: " ++ err.Error)))⟩
      | none =>
        match slice welcomeMsg 0 3 with
        | .panic => ⟨[.dial host, .read], .panic⟩
        | .ret head =>
          let code := (Atoi head).1
          match checkResponseCode 2 code with
          | some err =>
            ⟨[.dial host, .read], .ret (none, some (.New (ascii
              "Couldn't read the server's Welcome Message. Error: " ++ err.Error)))⟩
          | none =>
            let hostParts := Split 58 host
            match index hostParts 0 with
            | .panic => ⟨[.dial host, .read], .panic⟩
            | .ret h => ⟨[.dial host, .read], .ret (some ⟨host, h⟩, none)⟩

/-! ## `Connection.DownloadFile` -/

/-- The destination file while it is open: its content and the write
offset. -/
structure FileState where
  content : GoString
  offset : Nat
  deriving DecidableEq, Repr

/-- The effect on the file of `destFile.Write(data)` that stores the first `n`
bytes of `data`: they replace what the file holds from the offset on, and
lengthen the file where they reach past its end. -/
def FileState.store (f : FileState) (data : GoString) (n : Nat) : FileState :=
  ⟨f.content.take f.offset ++ data.take n ++ f.content.drop (f.offset + (data.take n).length),
    f.offset + (data.take n).length⟩

/-- One call of `destFile.Write(data)`. The result of a call is taken from
`results`: `none`, or an exhausted list, is a complete write; `some (n, err)`
is a write that stores `n` bytes and fails with `err`. -/
def FileState.Write (f : FileState) (data : GoString) :
    List (Option (Nat × IOError)) → FileState × List (Option (Nat × IOError)) × Option IOError
  | [] => (f.store data data.length, [], none)
  | none :: results => (f.store data data.length, results, none)
  | some (n, err) :: results => (f.store data n, results, some err)

/-- The copy loop of `DownloadFile`. `reads` are the results of
`download_conn.Read(buf)` that carry no error, `final` is the first result
that carries one (`io.EOF` at the end of the stream), with the bytes that come
with it. -/
def copyLoop (dest : GoString) (final : GoString × IOError) :
    List GoString → FileState → List (Option (Nat × IOError)) → FileState × Option Error
  | [], f, results =>
    if final.1.length > 0 then
      match f.Write final.1 results with
      | (f1, _, some err) =>
        (f1, some (.New (ascii "Coudn't write to file, '" ++ dest ++ ascii "'. Error: " ++ err.Error)))
      | (f1, _, none) =>
        if final.2 = .EOF then (f1, none) else (f1, some (.io final.2))
    else if final.2 = .EOF then (f, none) else (f, some (.io final.2))
  | chunk :: reads, f, results =>
    if chunk.length > 0 then
      match f.Write chunk results with
      | (f1, _, some err) =>
        (f1, some (.New (ascii "Coudn't write to file, '" ++ dest ++ ascii "'. Error: " ++ err.Error)))
      | (f1, results1, none) => copyLoop dest final reads f1 results1
    else copyLoop dest final reads f results

/-- What `DownloadFile` meets: the two command exchanges, the result of the
`Write` of `RETR`, the result of `net.Dial` for the data connection, the reads
of the data connection, the content of the destination path before the call
(`none` when no file is there), the result of `os.OpenFile`, and the results
of the writes to the file. -/
structure DownloadEnv where
  pasv : CmdEnv
  type : CmdEnv
  retrWriteErr : Option IOError
  dialErr : Option IOError
  reads : List GoString
  final : GoString × IOError
  prior : Option GoString
  openErr : Option IOError
  writeResults : List (Option (Nat × IOError))

/-- The result of `DownloadFile`: the arguments of the calls of
`c.control.Write`, the lines printed, the address dialed for the data
connection, the content of the destination path after the call, and the
outcome. -/
structure DownloadResult where
  writes : List GoString
  printed : List GoString
  dialed : Option GoString
  file : Option GoString
  out : Outcome (Option Error)
  deriving DecidableEq, Repr

/-- The method `(c *Connection) DownloadFile(src, dest, mode string)`. The
file is opened with `os.O_CREATE|os.O_WRONLY` and no `os.O_TRUNC`: a file that
exists keeps its content and is written from offset 0. When `net.Dial` fails,
`download_conn` is a nil interface and the deferred `download_conn.Close()`
panics. -/
def DownloadFile (c : Connection) (src dest mode : GoString) (env : DownloadEnv) :
    DownloadResult :=
  let r1 := Cmd (ascii "PASV") [] env.pasv
  match r1.out with
  | .panic => ⟨[r1.written], [], none, env.prior, .panic⟩
  | .ret ⟨_, _, some err⟩ => ⟨[r1.written], [], none, env.prior, .ret (some err)⟩
  | .ret ⟨pasvCode, pasvLine, none⟩ =>
  match checkResponseCode 2 pasvCode with
  | some pasvErr =>
    ⟨[r1.written], [], none, env.prior,
      .ret (some (.New (ascii "Cannot set PASV. Error: " ++ pasvErr.Error)))⟩
  | none =>
  match extractDataPort pasvLine with
  | .panic => ⟨[r1.written], [], none, env.prior, .panic⟩
  | .ret (_, some err) => ⟨[r1.written], [], none, env.prior, .ret (some err)⟩
  | .ret (dataPort, none) =>
  let r2 := Cmd (ascii "TYPE") mode env.type
  match r2.out with
  | .panic => ⟨[r1.written, r2.written], [], none, env.prior, .panic⟩
  | .ret ⟨_, _, some err⟩ => ⟨[r1.written, r2.written], [], none, env.prior, .ret (some err)⟩
  | .ret ⟨typeCode, typeLine, none⟩ =>
  match checkResponseCode 2 typeCode with
  | some typeErr =>
    ⟨[r1.written, r2.written], [], none, env.prior,
      .ret (some (.New (ascii "Cannot set TYPE. Error: '" ++ typeErr.Error ++
        ascii "'. Line: '" ++ typeLine ++ ascii "'")))⟩
  | none =>
  let command := ascii "RETR " ++ src ++ CRLF
  let writes := [r1.written, r2.written, command]
  match env.retrWriteErr with
  | some err => ⟨writes, [], none, env.prior, .ret (some (.io err))⟩
  | none =>
  let remoteConnectString := c.hostname ++ ascii ":" ++ fmtInt dataPort
  match env.dialErr with
  | some _ => ⟨writes, [remoteConnectString], some remoteConnectString, env.prior, .panic⟩
  | none =>
  match env.openErr with
  | some err =>
    ⟨writes, [remoteConnectString], some remoteConnectString, env.prior,
      .ret (some (.New (ascii "Cannot open destination file, '" ++ dest ++ ascii "'. " ++
        err.Error)))⟩
  | none =>
  let destFile : FileState := ⟨env.prior.getD [], 0⟩
  match copyLoop dest env.final env.reads destFile env.writeResults with
  | (f, err) => ⟨writes, [remoteConnectString], some remoteConnectString, some f.content, .ret err⟩

/-! ## Notions of the specification -/

/-- A line of a response: bytes other than the line feed, ended by one line
feed. -/
def IsLine (l : GoString) : Prop := ∃ body, l = body ++ [10] ∧ 10 ∉ body

/-- An unsigned decimal integer as text: one digit or more. -/
def IsNumber (d : GoString) : Prop := d ≠ [] ∧ ∀ b ∈ d, isDigit b = true

/-- The value of an unsigned decimal integer. -/
def decimal (d : GoString) : Nat := d.foldl (fun n b => n * 10 + (b - 48)) 0

/-- The text `h1,h2,h3,h4,p1,p2` followed by `post`. -/
def sixNumbers (h1 h2 h3 h4 p1 p2 post : GoString) : GoString :=
  h1 ++ 44 :: (h2 ++ 44 :: (h3 ++ 44 :: (h4 ++ 44 :: (p1 ++ 44 :: (p2 ++ post)))))

/-- The text `s` begins with six comma-separated unsigned decimal integers of
which `p1` and `p2` are the fifth and the sixth, and `post` is what follows
them. -/
def BeginsWithSix (s p1 p2 post : GoString) : Prop :=
  ∃ h1 h2 h3 h4, IsNumber h1 ∧ IsNumber h2 ∧ IsNumber h3 ∧ IsNumber h4 ∧ IsNumber p1 ∧
    IsNumber p2 ∧ s = sixNumbers h1 h2 h3 h4 p1 p2 post

/-- The line contains a substring of six comma-separated unsigned decimal
integers. -/
def ContainsSix (line : GoString) : Prop :=
  ∃ pre s p1 p2 post, line = pre ++ s ∧ BeginsWithSix s p1 p2 post

/-- The fifth and sixth numbers of the first substring of six
comma-separated unsigned decimal integers of the line are `p1` and `p2`: the
substring starts after `pre`, its last number is taken whole (no digit
follows it), and no such substring starts earlier. -/
def FirstSix (line p1 p2 : GoString) : Prop :=
  ∃ pre s post, line = pre ++ s ∧ BeginsWithSix s p1 p2 post ∧
    (∀ b, post.head? = some b → isDigit b = false) ∧
    ∀ pre2 s2 q1 q2 post2, line = pre2 ++ s2 → BeginsWithSix s2 q1 q2 post2 →
      pre.length ≤ pre2.length

/-! ## `checkResponseCode` (C1) -/

/-- Claim C1. For every expected and every actual code: with the expected
value in 1..9, `checkResponseCode` succeeds exactly when `actual/100` (the
quotient truncated toward zero) is the expected value; with it in 10..99,
exactly when `actual/10` is; with it in 100..999, exactly when the actual
code is the expected one. -/
theorem checkResponseCode_tiers (expected actual : Int) :
    (1 ≤ expected ∧ expected ≤ 9 →
      (checkResponseCode expected actual = none ↔ actual.tdiv 100 = expected)) ∧
    (10 ≤ expected ∧ expected ≤ 99 →
      (checkResponseCode expected actual = none ↔ actual.tdiv 10 = expected)) ∧
    (100 ≤ expected ∧ expected ≤ 999 →
      (checkResponseCode expected actual = none ↔ actual = expected)) := by
  unfold checkResponseCode
  generalize actual.tdiv 100 = q
  generalize actual.tdiv 10 = r
  refine ⟨fun h => ?_, fun h => ?_, fun h => ?_⟩
  all_goals
    split
    · rename_i hc; simp only [reduceCtorEq, false_iff]; omega
    · rename_i hc; simp only [true_iff]; omega

/-- Witness of C1 in each tier: 227 against 2, 227 against 22, and 226
against 227. -/
theorem checkResponseCode_tiers_witness :
    (checkResponseCode 2 227 = none ↔ (227 : Int).tdiv 100 = 2) ∧
    (checkResponseCode 22 227 = none ↔ (227 : Int).tdiv 10 = 22) ∧
    (checkResponseCode 227 226 = none ↔ (226 : Int) = 227) :=
  ⟨(checkResponseCode_tiers 2 227).1 (by decide),
   (checkResponseCode_tiers 22 227).2.1 (by decide),
   (checkResponseCode_tiers 227 226).2.2 (by decide)⟩

/-! ## Lemmas on `Cmd` -/

theorem MatchString_length (ln : GoString) (h : MatchString ln = true) : 4 ≤ ln.length := by
  match ln, h with
  | [], h => simp [MatchString] at h
  | [_], h => simp [MatchString] at h
  | [_, _], h => simp [MatchString] at h
  | [_, _, _], h => simp [MatchString] at h
  | _ :: _ :: _ :: _ :: _, _ => simp

theorem cmdLoop_ok_length (readErr : IOError) (lines : List GoString) :
    ∀ (response0 response : GoString),
      cmdLoop readErr lines response0 = .ok response → response0.length + 4 ≤ response.length := by
  induction lines with
  | nil => intro r0 r h; simp [cmdLoop] at h
  | cons ln lns ih =>
    intro r0 r h
    simp only [cmdLoop] at h
    split at h
    · rename_i hm
      have h4 := MatchString_length ln hm
      simp only [Except.ok.injEq] at h
      subst h
      simp only [List.length_append]
      omega
    · have := ih _ _ h
      simp only [List.length_append] at this
      omega

theorem Cmd_written (command arg : GoString) (env : CmdEnv) :
    (Cmd command arg env).written = command ++ [32] ++ arg ++ [13, 10] := by
  unfold Cmd
  have h32 : ascii " " = [32] := by decide
  simp only [h32, CRLF]
  split
  · rfl
  · split
    · rfl
    · split
      · rfl
      · split <;> rfl

theorem Cmd_returns (command arg : GoString) (env : CmdEnv) :
    ∃ v, (Cmd command arg env).out = .ret v := by
  unfold Cmd
  split
  · exact ⟨_, rfl⟩
  · split
    · exact ⟨_, rfl⟩
    · rename_i response hloop
      have := cmdLoop_ok_length _ _ _ _ hloop
      simp only [List.length_nil] at this
      have hs : slice response 0 3 = .ret (response.take 3) := by
        unfold slice
        rw [if_pos ⟨Nat.zero_le _, by omega⟩]
        simp
      rw [hs]
      simp only
      split
      · exact ⟨_, rfl⟩
      · exact ⟨_, rfl⟩

/-- Claim C10. The read loop of `Cmd` exits normally only with an accumulated
response of at least 3 bytes, so that `response[0:3]` is in range, and `Cmd`
returns for every write result and every byte stream: it never panics. -/
theorem Cmd_never_panics (command arg : GoString) (env : CmdEnv) :
    (∀ response, cmdLoop env.readErr (readLines env.input) [] = .ok response →
      3 ≤ response.length ∧ slice response 0 3 = .ret (response.take 3)) ∧
    ∃ v, (Cmd command arg env).out = .ret v := by
  have hlen : ∀ response, cmdLoop env.readErr (readLines env.input) [] = .ok response →
      3 ≤ response.length ∧ slice response 0 3 = .ret (response.take 3) := by
    intro response h
    have := cmdLoop_ok_length _ _ _ _ h
    simp only [List.length_nil] at this
    refine ⟨by omega, ?_⟩
    unfold slice
    rw [if_pos ⟨Nat.zero_le _, by omega⟩]
    simp
  refine ⟨hlen, ?_⟩
  unfold Cmd
  split
  · exact ⟨_, rfl⟩
  · split
    · exact ⟨_, rfl⟩
    · rename_i response hloop
      rw [(hlen response hloop).2]
      simp only
      split
      · exact ⟨_, rfl⟩
      · exact ⟨_, rfl⟩

/-- Witness of C10 on the stream `220 ready` with its line end. -/
theorem Cmd_never_panics_witness :
    3 ≤ (ascii "220 ready\r\n").length ∧
    slice (ascii "220 ready\r\n") 0 3 = .ret ((ascii "220 ready\r\n").take 3) :=
  (Cmd_never_panics (ascii "NOOP") [] ⟨none, ascii "220 ready\r\n", .EOF⟩).1
    (ascii "220 ready\r\n") rfl

/-! ## The bytes written by a command (C5) -/

theorem DownloadFile_first_write (c : Connection) (src dest mode : GoString) (env : DownloadEnv) :
    (DownloadFile c src dest mode env).writes.head? = some ((Cmd (ascii "PASV") [] env.pasv).written) := by
  unfold DownloadFile
  simp only
  repeat' split
  all_goals rfl

/-- Claim C5, as the code has it. For every verb and every argument, empty or
not, `Cmd` writes the verb, one space, the argument and CRLF: the space is
written before the CRLF also when the argument is empty. `Logout` writes
`QUIT`, a space and CRLF, and `DownloadFile` first writes `PASV`, a space and
CRLF. -/
theorem Cmd_writes_verb_space_argument (command arg : GoString) (env : CmdEnv)
    (closeErr : Option IOError) (c : Connection) (src dest mode : GoString) (denv : DownloadEnv) :
    (Cmd command arg env).written = command ++ [32] ++ arg ++ CRLF ∧
    (Logout env closeErr).writes = [ascii "QUIT \r\n"] ∧
    (DownloadFile c src dest mode denv).writes.head? = some (ascii "PASV \r\n") := by
  refine ⟨Cmd_written command arg env, ?_, ?_⟩
  · have hq : (Cmd (ascii "QUIT") [] env).written = ascii "QUIT \r\n" := by
      rw [Cmd_written]; decide
    unfold Logout
    simp only [hq]
    repeat' split
    all_goals rfl
  · rw [DownloadFile_first_write, Cmd_written]; decide

/-- Counterexample to C5 as stated: with the empty argument `Cmd` writes
`QUIT`, a space and CRLF, not `QUIT` and CRLF, and so does `Logout`. -/
theorem Cmd_empty_argument_writes_space :
    (Cmd (ascii "QUIT") [] ⟨none, ascii "221 Bye\r\n", .EOF⟩).written = ascii "QUIT \r\n" ∧
    (Cmd (ascii "QUIT") [] ⟨none, ascii "221 Bye\r\n", .EOF⟩).written ≠ ascii "QUIT" ++ CRLF ∧
    (Logout ⟨none, ascii "221 Bye\r\n", .EOF⟩ none).writes ≠ [ascii "QUIT\r\n"] := by
  decide

/-! ## `Login` (C8) -/

theorem Login_out (user password : GoString) (envUser envPass : CmdEnv)
    (hu : user ≠ []) (hp : password ≠ []) :
    ∃ v, (Cmd (ascii "PASS") password envPass).out = .ret v ∧
      (Login user password envUser envPass).out = .ret v.err := by
  obtain ⟨v1, h1⟩ := (Cmd_returns (ascii "USER") user envUser)
  obtain ⟨v2, h2⟩ := (Cmd_returns (ascii "PASS") password envPass)
  refine ⟨v2, h2, ?_⟩
  unfold Login
  simp only [if_neg hu, if_neg hp, h1, h2]

/-- Claim C8 at a failing input. The server answers `USER` with a line whose
first three bytes are not a number, so that the `USER` exchange fails, and
answers `PASS` with `230`: `Login` returns `nil`. -/
theorem Login_swallows_USER_failure :
    (Cmd (ascii "USER") (ascii "anonymous") ⟨none, ascii "Hi 331 password?\r\n", .EOF⟩).out =
      .ret ⟨0, ascii "Hi 331 password?\r\n", some (.NumError (ascii "Hi ") false)⟩ ∧
    (Login (ascii "anonymous") (ascii "guest") ⟨none, ascii "Hi 331 password?\r\n", .EOF⟩
      ⟨none, ascii "230 Logged in\r\n", .EOF⟩).out = .ret none := by
  decide

/-! ## The host name kept by `Dial` (C9) -/

/-- Claim C9 at a failing input. For the address `[::1]:21`, accepted by
`hasPort`, with a successful connection and the greeting `220`, `Dial` keeps
the host name `[`: the text before the first colon, not `[::1]`, the text
before the last one. -/
theorem Dial_hostname_ipv6 :
    hasPort (ascii "[::1]:21") = true ∧
    (Dial (ascii "[::1]:21") ⟨none, ascii "220 Service ready\r\n", none⟩).out =
      .ret (some ⟨ascii "[::1]:21", ascii "["⟩, none) ∧
    ascii "[" ≠ ascii "[::1]" := by
  decide

/-! ## The destination file of `DownloadFile` (C7) -/

/-- Claim C7 at a failing input. The destination holds `abcdef` before the
call, the exchanges succeed and the data connection delivers `x`, then `y`,
then the end of the stream, with no read or write error: `DownloadFile`
returns `nil` and the file holds `xycdef`, not `xy`. -/
theorem DownloadFile_keeps_old_tail :
    (DownloadFile ⟨ascii "host:21", ascii "host"⟩ (ascii "remote.txt") (ascii "local.txt") (ascii "I")
      ⟨⟨none, ascii "227 Entering Passive Mode (127,0,0,1,10,0).\r\n", .EOF⟩,
        ⟨none, ascii "200 Type set to I\r\n", .EOF⟩, none, none,
        [ascii "x", ascii "y"], ([], .EOF), some (ascii "abcdef"), none, []⟩) =
      ⟨[ascii "PASV \r\n", ascii "TYPE I\r\n", ascii "RETR remote.txt\r\n"],
        [ascii "host:2560"], some (ascii "host:2560"), some (ascii "xycdef"), .ret none⟩ ∧
    ascii "xycdef" ≠ ascii "x" ++ ascii "y" := by
  decide

/-! ## `hasPort` and the rejection of an address without a port (C6) -/

theorem LastIndex_cons (sep b : Byte) (rest : GoString) :
    LastIndex sep (b :: rest) =
      if LastIndex sep rest ≥ 0 then LastIndex sep rest + 1 else if b = sep then 0 else -1 := rfl

theorem LastIndex_ge_neg_one (sep : Byte) (s : GoString) : -1 ≤ LastIndex sep s := by
  induction s with
  | nil => simp [LastIndex]
  | cons b rest ih =>
    simp only [LastIndex]
    split
    · omega
    · split <;> omega

theorem LastIndex_split (sep : Byte) (s : GoString) (h : 0 ≤ LastIndex sep s) :
    ∃ pre post, s = pre ++ sep :: post ∧ sep ∉ post ∧ LastIndex sep s = pre.length := by
  induction s with
  | nil => simp [LastIndex] at h
  | cons b rest ih =>
    simp only [LastIndex] at h ⊢
    by_cases hr : LastIndex sep rest ≥ 0
    · obtain ⟨pre, post, hs, hn, hl⟩ := ih hr
      refine ⟨b :: pre, post, by rw [hs]; rfl, hn, ?_⟩
      rw [if_pos hr, hl]
      simp
    · rw [if_neg hr] at h ⊢
      by_cases hb : b = sep
      · refine ⟨[], rest, by rw [hb]; rfl, ?_, by simp [hb]⟩
        intro hmem
        obtain ⟨p, q, hpq⟩ := List.append_of_mem hmem
        apply hr
        clear h ih hr hmem
        subst hpq
        induction p with
        | nil =>
          simp only [List.nil_append, LastIndex]
          have := LastIndex_ge_neg_one sep q
          split
          · omega
          · simp
        | cons a p ihp =>
          rw [List.cons_append, LastIndex_cons, if_pos ihp]
          omega
      · rw [if_neg hb] at h
        omega

theorem LastIndex_ge_of_split (sep : Byte) (pre post : GoString) :
    (pre.length : Int) ≤ LastIndex sep (pre ++ sep :: post) := by
  induction pre with
  | nil =>
    simp only [List.nil_append, LastIndex, List.length_nil]
    have := LastIndex_ge_neg_one sep post
    split
    · omega
    · simp
  | cons a p ih =>
    have h0 : LastIndex sep (p ++ sep :: post) ≥ 0 := by omega
    rw [List.cons_append, LastIndex_cons, if_pos h0, List.length_cons]
    push_cast
    omega

theorem LastIndex_neg_of_not_mem (sep : Byte) (s : GoString) (h : sep ∉ s) :
    LastIndex sep s = -1 := by
  have h1 := LastIndex_ge_neg_one sep s
  by_contra hne
  have h0 : 0 ≤ LastIndex sep s := by omega
  obtain ⟨pre, post, hs, _, _⟩ := LastIndex_split sep s h0
  apply h
  rw [hs]
  simp

/-- The function `hasPort` holds exactly of the addresses with a colon that no
closing bracket follows. -/
theorem hasPort_iff (s : GoString) :
    hasPort s = true ↔ ∃ pre post, s = pre ++ 58 :: post ∧ 93 ∉ post := by
  unfold hasPort
  rw [decide_eq_true_iff]
  constructor
  · intro h
    have h93 := LastIndex_ge_neg_one 93 s
    obtain ⟨pre, post, hs, _, hl⟩ := LastIndex_split 58 s (by omega)
    refine ⟨pre, post, hs, ?_⟩
    intro hmem
    obtain ⟨p, q, hpq⟩ := List.append_of_mem hmem
    have hge := LastIndex_ge_of_split 93 (pre ++ 58 :: p) q
    have hs2 : s = (pre ++ 58 :: p) ++ 93 :: q := by rw [hs, hpq]; simp
    rw [← hs2] at hge
    simp only [List.length_append, List.length_cons] at hge
    push_cast at hge
    omega
  · rintro ⟨pre, post, hs, hn⟩
    have hge := LastIndex_ge_of_split 58 pre post
    rw [← hs] at hge
    by_cases h93 : 0 ≤ LastIndex 93 s
    · obtain ⟨pre2, post2, hs2, _, hl2⟩ := LastIndex_split 93 s h93
      rw [hl2]
      have heq : pre ++ 58 :: post = pre2 ++ 93 :: post2 := by rw [← hs, ← hs2]
      rcases List.append_eq_append_iff.1 heq with ⟨a, ha, hb⟩ | ⟨c, hc, hd⟩
      · -- pre2 = pre ++ a, 58 :: post = a ++ 93 :: post2
        cases a with
        | nil => simp at hb
        | cons x a =>
          simp only [List.cons_append, List.cons.injEq] at hb
          exfalso
          apply hn
          rw [hb.2]
          simp
      · -- pre = pre2 ++ c, 93 :: post2 = c ++ 58 :: post
        cases c with
        | nil => simp at hd
        | cons x c =>
          have : pre.length = pre2.length + (c.length + 1) := by rw [hc]; simp
          have hh : (pre.length : Int) = pre2.length + (c.length + 1) := by exact_mod_cast this
          omega
    · have := LastIndex_ge_neg_one 93 s
      omega

/-- Claim C6. For every address that is empty or has no colon after its last
closing bracket, and every behaviour of the network, `Dial` returns a usage
error made by `errors.New` and no connection, and performs no network
operation: neither `net.Dial` nor a read. -/
theorem Dial_rejects_address_without_port (host : GoString) (env : DialEnv)
    (h : host = [] ∨ ¬ ∃ pre post, host = pre ++ 58 :: post ∧ 93 ∉ post) :
    (Dial host env).trace = [] ∧
    ((Dial host env).out =
        .ret (none, some (.New (ascii "FTP Connection Error: Host can not be blank!"))) ∨
      (Dial host env).out =
        .ret (none, some (.New (ascii "FTP Connection Error: Host must have a port! e.g. host:21")))) := by
  unfold Dial
  by_cases h0 : host = []
  · rw [if_pos h0]
    exact ⟨rfl, Or.inl rfl⟩
  · rw [if_neg h0]
    have hp : hasPort host = false := by
      rcases h with h | h
      · exact absurd h h0
      · cases hh : hasPort host with
        | false => rfl
        | true => exact absurd ((hasPort_iff host).1 hh) h
    rw [hp]
    exact ⟨rfl, Or.inr rfl⟩

/-- Witness of C6 at the addresses `ftp.example.com` and `[::1]`, with a
network on which a connection would succeed. -/
theorem Dial_rejects_address_without_port_witness :
    ((Dial (ascii "ftp.example.com") ⟨none, ascii "220 ready\r\n", none⟩).trace = [] ∧
      ((Dial (ascii "ftp.example.com") ⟨none, ascii "220 ready\r\n", none⟩).out =
          .ret (none, some (.New (ascii "FTP Connection Error: Host can not be blank!"))) ∨
        (Dial (ascii "ftp.example.com") ⟨none, ascii "220 ready\r\n", none⟩).out =
          .ret (none, some (.New (ascii "FTP Connection Error: Host must have a port! e.g. host:21"))))) ∧
    ((Dial (ascii "[::1]") ⟨none, ascii "220 ready\r\n", none⟩).trace = [] ∧
      ((Dial (ascii "[::1]") ⟨none, ascii "220 ready\r\n", none⟩).out =
          .ret (none, some (.New (ascii "FTP Connection Error: Host can not be blank!"))) ∨
        (Dial (ascii "[::1]") ⟨none, ascii "220 ready\r\n", none⟩).out =
          .ret (none, some (.New (ascii "FTP Connection Error: Host must have a port! e.g. host:21"))))) :=
  ⟨Dial_rejects_address_without_port (ascii "ftp.example.com") ⟨none, ascii "220 ready\r\n", none⟩
      (Or.inr (fun hex => absurd ((hasPort_iff _).2 hex) (by decide))),
    Dial_rejects_address_without_port (ascii "[::1]") ⟨none, ascii "220 ready\r\n", none⟩
      (Or.inr (fun hex => absurd ((hasPort_iff _).2 hex) (by decide)))⟩

/-! ## The code returned by `Cmd` (C2) -/

theorem readLines_line (body s : GoString) (h : 10 ∉ body) :
    readLines (body ++ 10 :: s) = (body ++ [10]) :: readLines s := by
  induction body with
  | nil => simp [readLines]
  | cons b body ih =>
    have hb : b ≠ 10 := fun hb => h (by simp [hb])
    have hbody : 10 ∉ body := fun hm => h (List.mem_cons_of_mem _ hm)
    rw [List.cons_append]
    simp only [readLines]
    rw [if_neg hb, ih hbody]
    rfl

theorem readLines_lines (ls : List GoString) (s : GoString) (h : ∀ l ∈ ls, IsLine l) :
    readLines (ls.flatten ++ s) = ls ++ readLines s := by
  induction ls with
  | nil => simp
  | cons l ls ih =>
    obtain ⟨body, hl, hbody⟩ := h l (List.mem_cons_self _ _)
    have ih2 := ih (fun x hx => h x (List.mem_cons_of_mem _ hx))
    rw [List.flatten_cons, hl, List.append_assoc, List.append_assoc, List.singleton_append,
      readLines_line _ _ hbody, ih2]
    rfl

theorem cmdLoop_lines (readErr : IOError) (conts : List GoString) (term : GoString)
    (more : List GoString) (hc : ∀ l ∈ conts, MatchString l = false)
    (ht : MatchString term = true) :
    ∀ response0, cmdLoop readErr (conts ++ term :: more) response0 =
      .ok (response0 ++ (conts.flatten ++ term)) := by
  induction conts with
  | nil =>
    intro r0
    simp [cmdLoop, ht]
  | cons l ls ih =>
    intro r0
    have hl : MatchString l = false := hc l (List.mem_cons_self _ _)
    rw [List.cons_append]
    simp only [cmdLoop, hl]
    rw [ih (fun x hx => hc x (List.mem_cons_of_mem _ hx))]
    simp

theorem Atoi_three_digits (a b c : Nat) (ha : isDigit a = true) (hb : isDigit b = true)
    (hc : isDigit c = true) :
    Atoi [a, b, c] = (((a : Int) - 48) * 100 + ((b : Int) - 48) * 10 + ((c : Int) - 48), none) := by
  have ha2 : 48 ≤ a ∧ a ≤ 57 := by simpa [isDigit] using ha
  have h45 : ¬ (a = 45 ∨ a = 43) := by omega
  have h45b : ¬ (a = 45) := by omega
  simp only [Atoi, List.length_cons, List.length_nil, if_neg h45, if_neg h45b, atoiFastLoop, ha, hb, hc]
  simp
  ring

theorem Cmd_out_of_lines (command arg : GoString) (conts : List GoString) (term rest : GoString)
    (readErr : IOError)
    (hcl : ∀ l ∈ conts, IsLine l) (hcm : ∀ l ∈ conts, MatchString l = false)
    (htl : IsLine term) (htm : MatchString term = true) :
    (Cmd command arg ⟨none, conts.flatten ++ term ++ rest, readErr⟩).out =
      match Atoi ((conts.flatten ++ term).take 3) with
      | (_, some err) => .ret ⟨0, conts.flatten ++ term, some err⟩
      | (code, none) => .ret ⟨code, conts.flatten ++ term, none⟩ := by
  have hlines : readLines (conts.flatten ++ term ++ rest) = conts ++ term :: readLines rest := by
    have := readLines_lines (conts ++ [term]) rest (by
      intro l hl
      rcases List.mem_append.1 hl with h | h
      · exact hcl l h
      · rw [List.mem_singleton.1 h]; exact htl)
    simpa using this
  have hloop := cmdLoop_lines readErr conts term (readLines rest) hcm htm []
  rw [List.nil_append] at hloop
  have hlen : 3 ≤ (conts.flatten ++ term).length := by
    have := cmdLoop_ok_length _ _ _ _ hloop
    simp only [List.length_nil] at this
    omega
  have hs : slice (conts.flatten ++ term) 0 3 = .ret ((conts.flatten ++ term).take 3) := by
    unfold slice
    rw [if_pos ⟨Nat.zero_le _, hlen⟩]
    simp
  unfold Cmd
  simp only [hlines, hloop, hs]
  split <;> rename_i h <;> simp only [h]

/-- Claim C2, as the code has it. For every response made of continuation
lines (lines in which three digits and a space do not occur) and a
terminating line in which they do, read by `Cmd` after a successful write,
the message `Cmd` returns is all these lines in order, and the code is what
`strconv.Atoi` makes of the first three bytes of that message, that is of the
first line read: when these bytes are the digits `a`, `b`, `c`, the code is
the number they spell and the error is `nil`. -/
theorem Cmd_code_of_first_three_bytes (command arg : GoString) (conts : List GoString)
    (term rest : GoString) (readErr : IOError)
    (hcl : ∀ l ∈ conts, IsLine l) (hcm : ∀ l ∈ conts, MatchString l = false)
    (htl : IsLine term) (htm : MatchString term = true) :
    ((Cmd command arg ⟨none, conts.flatten ++ term ++ rest, readErr⟩).out =
      match Atoi ((conts.flatten ++ term).take 3) with
      | (_, some err) => .ret ⟨0, conts.flatten ++ term, some err⟩
      | (code, none) => .ret ⟨code, conts.flatten ++ term, none⟩) ∧
    ∀ (a b c : Nat) (tail : GoString), conts.flatten ++ term = a :: b :: c :: tail →
      isDigit a = true → isDigit b = true → isDigit c = true →
      (Cmd command arg ⟨none, conts.flatten ++ term ++ rest, readErr⟩).out =
        .ret ⟨((a : Int) - 48) * 100 + ((b : Int) - 48) * 10 + ((c : Int) - 48),
          conts.flatten ++ term, none⟩ := by
  refine ⟨Cmd_out_of_lines command arg conts term rest readErr hcl hcm htl htm, ?_⟩
  intro a b c tail hhead ha hb hc
  rw [Cmd_out_of_lines command arg conts term rest readErr hcl hcm htl htm]
  have ht : (conts.flatten ++ term).take 3 = [a, b, c] := by rw [hhead]; rfl
  rw [ht, Atoi_three_digits a b c ha hb hc]

/-- Witness of C2 as the code has it: the continuation line `150-...` and the
terminating line `226 Transfer complete` give the code 150 and both lines. -/
theorem Cmd_code_of_first_three_bytes_witness :
    (Cmd (ascii "RETR") (ascii "file")
      ⟨none, [ascii "150-...\r\n"].flatten ++ ascii "226 Transfer complete\r\n" ++ [], .EOF⟩).out =
      .ret ⟨((49 : Int) - 48) * 100 + ((53 : Int) - 48) * 10 + ((48 : Int) - 48),
        [ascii "150-...\r\n"].flatten ++ ascii "226 Transfer complete\r\n", none⟩ :=
  (Cmd_code_of_first_three_bytes (ascii "RETR") (ascii "file") [ascii "150-...\r\n"]
    (ascii "226 Transfer complete\r\n") [] .EOF
    (by
      intro l hl
      rw [List.mem_singleton.1 hl]
      exact ⟨ascii "150-...\r", by decide, by decide⟩)
    (by
      intro l hl
      rw [List.mem_singleton.1 hl]
      decide)
    ⟨ascii "226 Transfer complete\r", by decide, by decide⟩
    (by decide)).2 49 53 48 (ascii "-...\r\n226 Transfer complete\r\n")
    (by decide) (by decide) (by decide) (by decide)

/-- Counterexample to C2 as stated: for the continuation line `150-...`
followed by `226 Transfer complete`, `Cmd` returns the code 150 of the first
line, not the code 226 of the terminating line; the message holds both
lines. -/
theorem Cmd_code_not_of_terminating_line :
    (Cmd (ascii "RETR") (ascii "file")
      ⟨none, ascii "150-...\r\n226 Transfer complete\r\n", .EOF⟩).out =
      .ret ⟨150, ascii "150-...\r\n226 Transfer complete\r\n", none⟩ ∧
    MatchString (ascii "150-...\r\n") = false ∧
    MatchString (ascii "226 Transfer complete\r\n") = true ∧
    Atoi ((ascii "226 Transfer complete\r\n").take 3) = (226, none) ∧
    (150 : Int) ≠ 226 := by
  decide

/-! ## The port pattern -/

theorem isDigit_comma : isDigit 44 = false := by decide

theorem matchNumber_append (d rest : GoString) (hd : IsNumber d) :
    matchNumber (d ++ rest) = some (d ++ rest.takeWhile isDigit, rest.dropWhile isDigit) := by
  unfold matchNumber
  rw [List.takeWhile_append_of_pos hd.2, List.dropWhile_append_of_pos hd.2]
  have : d ++ List.takeWhile isDigit rest ≠ [] := by
    intro h
    exact hd.1 (List.append_eq_nil.1 h).1
  rw [if_neg this]

theorem matchNumber_comma (d rest : GoString) (hd : IsNumber d) :
    matchNumber (d ++ 44 :: rest) = some (d, 44 :: rest) := by
  rw [matchNumber_append d _ hd]
  simp [isDigit_comma]

theorem matchNumber_some (s d r : GoString) (h : matchNumber s = some (d, r)) :
    IsNumber d ∧ s = d ++ r ∧ ∀ b, r.head? = some b → isDigit b = false := by
  unfold matchNumber at h
  split at h
  · simp at h
  · rename_i hne
    simp only [Option.some.injEq, Prod.mk.injEq] at h
    obtain ⟨h1, h2⟩ := h
    refine ⟨⟨by rw [← h1]; exact hne, ?_⟩, ?_, ?_⟩
    · intro b hb
      rw [← h1] at hb
      exact List.mem_takeWhile_imp hb
    · rw [← h1, ← h2, List.takeWhile_append_dropWhile]
    · intro b hb
      have := List.head?_dropWhile_not isDigit s
      rw [h2, hb] at this
      exact this

theorem matchComma_some (s r : GoString) (h : matchComma s = some r) : s = 44 :: r := by
  unfold matchComma at h
  split at h
  · simp only [Option.some.injEq] at h
    rw [h]
  · simp at h

theorem matchPortAt_six (h1 h2 h3 h4 p1 p2 post : GoString)
    (n1 : IsNumber h1) (n2 : IsNumber h2) (n3 : IsNumber h3) (n4 : IsNumber h4)
    (n5 : IsNumber p1) (n6 : IsNumber p2) :
    matchPortAt (sixNumbers h1 h2 h3 h4 p1 p2 post) =
      some (p1 ++ 44 :: (p2 ++ post.takeWhile isDigit)) := by
  unfold matchPortAt sixNumbers
  simp only [matchNumber_comma _ _ n1, matchNumber_comma _ _ n2, matchNumber_comma _ _ n3,
    matchNumber_comma _ _ n4, matchNumber_comma _ _ n5, matchNumber_append _ _ n6, matchComma]

theorem matchPortAt_some (s g : GoString) (h : matchPortAt s = some g) :
    ∃ p1 p2 post, BeginsWithSix s p1 p2 post ∧ g = p1 ++ 44 :: p2 ∧
      ∀ b, post.head? = some b → isDigit b = false := by
  unfold matchPortAt at h
  repeat' split at h
  all_goals try (simp at h; done)
  rename_i _ d1 s1 e1 _ s2 e2 _ d2 s3 e3 _ s4 e4 _ d3 s5 e5 _ s6 e6 _ d4 s7 e7 _ s8 e8
    _ p1 s9 e9 _ s10 e10 _ p2 s11 e11
  simp only [Option.some.injEq] at h
  obtain ⟨m1, a1, -⟩ := matchNumber_some _ _ _ e1
  obtain ⟨m2, a2, -⟩ := matchNumber_some _ _ _ e3
  obtain ⟨m3, a3, -⟩ := matchNumber_some _ _ _ e5
  obtain ⟨m4, a4, -⟩ := matchNumber_some _ _ _ e7
  obtain ⟨m5, a5, -⟩ := matchNumber_some _ _ _ e9
  obtain ⟨m6, a6, hpost⟩ := matchNumber_some _ _ _ e11
  have c1 := matchComma_some _ _ e2
  have c2 := matchComma_some _ _ e4
  have c3 := matchComma_some _ _ e6
  have c4 := matchComma_some _ _ e8
  have c5 := matchComma_some _ _ e10
  refine ⟨p1, p2, s11, ⟨d1, d2, d3, d4, m1, m2, m3, m4, m5, m6, ?_⟩, h.symm, hpost⟩
  unfold sixNumbers
  rw [a1, c1, a2, c2, a3, c3, a4, c4, a5, c5, a6]

/-! ## `FindStringSubmatch`: the leftmost match -/

theorem FindStringSubmatch_none_iff (line : GoString) :
    FindStringSubmatch line = none ↔ ∀ pre s, line = pre ++ s → matchPortAt s = none := by
  induction line with
  | nil =>
    constructor
    · intro _ pre s h
      have hs : s = [] := (List.append_eq_nil.1 h.symm).2
      rw [hs]
      rfl
    · intro _
      rfl
  | cons b rest ih =>
    simp only [FindStringSubmatch]
    constructor
    · intro h pre s hps
      cases hm : matchPortAt (b :: rest) with
      | some g => rw [hm] at h; simp at h
      | none =>
        rw [hm] at h
        cases pre with
        | nil => rw [List.nil_append] at hps; rw [← hps]; exact hm
        | cons a p =>
          rw [List.cons_append, List.cons.injEq] at hps
          exact (ih.1 h) p s hps.2
    · intro h
      rw [h [] (b :: rest) rfl]
      exact ih.2 (fun pre s hps => h (b :: pre) s (by rw [hps]; rfl))

theorem FindStringSubmatch_some (line g : GoString) (h : FindStringSubmatch line = some g) :
    ∃ pre s, line = pre ++ s ∧ matchPortAt s = some g ∧
      ∀ pre2 s2, line = pre2 ++ s2 → pre2.length < pre.length → matchPortAt s2 = none := by
  induction line with
  | nil => simp [FindStringSubmatch] at h
  | cons b rest ih =>
    simp only [FindStringSubmatch] at h
    cases hm : matchPortAt (b :: rest) with
    | some g2 =>
      rw [hm] at h
      simp only [Option.some.injEq] at h
      refine ⟨[], b :: rest, rfl, by rw [hm, h], ?_⟩
      intro pre2 s2 _ hlt
      simp at hlt
    | none =>
      rw [hm] at h
      obtain ⟨pre, s, hps, hs, hmin⟩ := ih h
      refine ⟨b :: pre, s, by rw [hps]; rfl, hs, ?_⟩
      intro pre2 s2 hps2 hlt
      cases pre2 with
      | nil => rw [List.nil_append] at hps2; rw [← hps2]; exact hm
      | cons a p =>
        rw [List.cons_append, List.cons.injEq] at hps2
        exact hmin p s2 hps2.2 (by simpa using hlt)

theorem FindStringSubmatch_of_first (pre s g : GoString) (h : matchPortAt s = some g)
    (hmin : ∀ pre2 s2, pre ++ s = pre2 ++ s2 → pre2.length < pre.length → matchPortAt s2 = none) :
    FindStringSubmatch (pre ++ s) = some g := by
  induction pre with
  | nil =>
    cases s with
    | nil =>
      have h0 : matchPortAt [] = none := rfl
      rw [h0] at h
      exact absurd h (by simp)
    | cons b r =>
      rw [List.nil_append]
      simp only [FindStringSubmatch, h]
  | cons a p ih =>
    have h0 : matchPortAt (a :: (p ++ s)) = none := hmin [] _ rfl (by simp)
    rw [List.cons_append]
    simp only [FindStringSubmatch, h0]
    apply ih
    intro pre2 s2 hps hlt
    exact hmin (a :: pre2) s2 (by rw [List.cons_append, hps]; rfl) (by simpa using hlt)

theorem IsNumber_no_comma (d : GoString) (hd : IsNumber d) : 44 ∉ d := by
  intro h
  have := hd.2 44 h
  rw [isDigit_comma] at this
  exact absurd this (by decide)

theorem split_at_comma_unique (a b c d : GoString) (ha : 44 ∉ a) (hc : 44 ∉ c)
    (h : a ++ 44 :: b = c ++ 44 :: d) : a = c ∧ b = d := by
  induction a generalizing c with
  | nil =>
    cases c with
    | nil => simpa using h
    | cons x c =>
      simp only [List.nil_append, List.cons_append, List.cons.injEq] at h
      exact absurd (by rw [← h.1]; simp) hc
  | cons y a ih =>
    cases c with
    | nil =>
      simp only [List.nil_append, List.cons_append, List.cons.injEq] at h
      exact absurd (by rw [h.1]; simp) ha
    | cons x c =>
      simp only [List.cons_append, List.cons.injEq] at h
      obtain ⟨e1, e2⟩ := ih c (fun hm => ha (List.mem_cons_of_mem _ hm))
        (fun hm => hc (List.mem_cons_of_mem _ hm)) h.2
      exact ⟨by rw [h.1, e1], e2⟩

theorem takeWhile_nil_of_head (post : GoString)
    (h : ∀ b, post.head? = some b → isDigit b = false) : post.takeWhile isDigit = [] := by
  cases post with
  | nil => rfl
  | cons b r =>
    have := h b rfl
    simp [List.takeWhile, this]

theorem FirstSix_of_find (line p1 p2 : GoString) (n1 : IsNumber p1)
    (h : FindStringSubmatch line = some (p1 ++ 44 :: p2)) : FirstSix line p1 p2 := by
  obtain ⟨pre, s, hps, hs, hmin⟩ := FindStringSubmatch_some line _ h
  obtain ⟨q1, q2, post, hsix, hg, hpost⟩ := matchPortAt_some s _ hs
  obtain ⟨h1, h2, h3, h4, m1, m2, m3, m4, m5, m6, hs6⟩ := hsix
  obtain ⟨e1, e2⟩ := split_at_comma_unique p1 p2 q1 q2 (IsNumber_no_comma _ n1)
    (IsNumber_no_comma _ m5) hg
  subst e1 e2
  refine ⟨pre, s, post, hps, ⟨h1, h2, h3, h4, m1, m2, m3, m4, m5, m6, hs6⟩, hpost, ?_⟩
  intro pre2 s2 q1 q2 post2 hps2 hsix2
  obtain ⟨k1, k2, k3, k4, l1, l2, l3, l4, l5, l6, hs2⟩ := hsix2
  by_contra hlt
  have hnone := hmin pre2 s2 hps2 (by omega)
  rw [hs2, matchPortAt_six k1 k2 k3 k4 q1 q2 post2 l1 l2 l3 l4 l5 l6] at hnone
  simp at hnone

theorem find_of_FirstSix (line p1 p2 : GoString) (h : FirstSix line p1 p2) :
    FindStringSubmatch line = some (p1 ++ 44 :: p2) := by
  obtain ⟨pre, s, post, hps, hsix, hpost, hmin⟩ := h
  obtain ⟨h1, h2, h3, h4, m1, m2, m3, m4, m5, m6, hs6⟩ := hsix
  have hm : matchPortAt s = some (p1 ++ 44 :: p2) := by
    rw [hs6, matchPortAt_six h1 h2 h3 h4 p1 p2 post m1 m2 m3 m4 m5 m6,
      takeWhile_nil_of_head post hpost, List.append_nil]
  rw [hps]
  apply FindStringSubmatch_of_first pre s _ hm
  intro pre2 s2 hps2 hlt
  cases hm2 : matchPortAt s2 with
  | none => rfl
  | some g2 =>
    obtain ⟨q1, q2, post2, hsix2, _, _⟩ := matchPortAt_some s2 g2 hm2
    have := hmin pre2 s2 q1 q2 post2 (by rw [hps, hps2]) hsix2
    omega

theorem find_some_iff_ContainsSix (line : GoString) :
    (∃ g, FindStringSubmatch line = some g) ↔ ContainsSix line := by
  constructor
  · rintro ⟨g, hg⟩
    obtain ⟨pre, s, hps, hs, _⟩ := FindStringSubmatch_some line g hg
    obtain ⟨q1, q2, post, hsix, _, _⟩ := matchPortAt_some s g hs
    exact ⟨pre, s, q1, q2, post, hps, hsix⟩
  · rintro ⟨pre, s, p1, p2, post, hps, h1, h2, h3, h4, m1, m2, m3, m4, m5, m6, hs6⟩
    cases hf : FindStringSubmatch line with
    | some g => exact ⟨g, rfl⟩
    | none =>
      have := (FindStringSubmatch_none_iff line).1 hf pre s hps
      rw [hs6, matchPortAt_six h1 h2 h3 h4 p1 p2 post m1 m2 m3 m4 m5 m6] at this
      simp at this

/-! ## `strings.Split` and `strconv.Atoi` on the capture group -/

theorem Split_no_sep (sep : Nat) (s : GoString) (h : sep ∉ s) : Split sep s = [s] := by
  induction s with
  | nil => rfl
  | cons b r ih =>
    have hb : b ≠ sep := fun e => h (by rw [e]; simp)
    simp only [Split, if_neg hb, ih (fun hm => h (List.mem_cons_of_mem _ hm))]

theorem Split_one_sep (sep : Nat) (a b : GoString) (ha : sep ∉ a) (hb : sep ∉ b) :
    Split sep (a ++ sep :: b) = [a, b] := by
  induction a with
  | nil => simp [Split, Split_no_sep sep b hb]
  | cons x a ih =>
    have hx : x ≠ sep := fun e => ha (by rw [e]; simp)
    rw [List.cons_append]
    simp only [Split, if_neg hx, ih (fun hm => ha (List.mem_cons_of_mem _ hm))]

theorem decimal_step_le (d : GoString) :
    ∀ n : Nat, n ≤ d.foldl (fun n b => n * 10 + (b - 48)) n := by
  induction d with
  | nil => intro n; exact Nat.le_refl _
  | cons c cs ih =>
    intro n
    simp only [List.foldl_cons]
    have := ih (n * 10 + (c - 48))
    omega

theorem atoiFastLoop_digits (d : GoString) (hd : ∀ b ∈ d, isDigit b = true) :
    ∀ n : Nat, atoiFastLoop d (n : Int) =
      some ((d.foldl (fun n b => n * 10 + (b - 48)) n : Nat) : Int) := by
  induction d with
  | nil => intro n; rfl
  | cons c cs ih =>
    intro n
    have hc : isDigit c = true := hd c (List.mem_cons_self _ _)
    have hc2 : 48 ≤ c ∧ c ≤ 57 := by simpa [isDigit] using hc
    simp only [atoiFastLoop, hc, List.foldl_cons]
    have e : (n : Int) * 10 + ((c : Int) - 48) = ((n * 10 + (c - 48) : Nat) : Int) := by
      omega
    simp only [Bool.not_true, Bool.false_eq_true, if_false]
    rw [e]
    exact ih (fun b hb => hd b (List.mem_cons_of_mem _ hb)) _

theorem parseUintLoop_digits (d : GoString) (hd : ∀ b ∈ d, isDigit b = true) :
    ∀ n : Nat, d.foldl (fun n b => n * 10 + (b - 48)) n < 2 ^ 64 →
      parseUintLoop d n = (d.foldl (fun n b => n * 10 + (b - 48)) n, none) := by
  induction d with
  | nil => intro n _; rfl
  | cons c cs ih =>
    intro n hlt
    have hc : isDigit c = true := hd c (List.mem_cons_self _ _)
    simp only [List.foldl_cons] at hlt ⊢
    have hge := decimal_step_le cs (n * 10 + (c - 48))
    norm_num at hlt
    have h1 : ¬ (n ≥ (2 ^ 64 - 1) / 10 + 1) := by norm_num; omega
    have h2 : ¬ (n * 10 + (c - 48) > 2 ^ 64 - 1) := by norm_num; omega
    simp only [parseUintLoop, hc, Bool.not_true, Bool.false_eq_true, if_false, if_neg h1, if_neg h2]
    exact ih (fun b hb => hd b (List.mem_cons_of_mem _ hb)) _ (by norm_num; exact hlt)

/-- On an unsigned decimal integer below `2^63`, `Atoi` returns its value and
no error. -/
theorem Atoi_number (d : GoString) (hd : IsNumber d) (h : decimal d < 2 ^ 63) :
    Atoi d = (((decimal d : Nat) : Int), none) := by
  obtain ⟨hne, hdig⟩ := hd
  cases d with
  | nil => exact absurd rfl hne
  | cons c cs =>
    have hc : isDigit c = true := hdig c (List.mem_cons_self _ _)
    have hc2 : 48 ≤ c ∧ c ≤ 57 := by simpa [isDigit] using hc
    have s1 : ¬ (c = 45 ∨ c = 43) := by omega
    have s2 : ¬ (c = 43 ∨ c = 45) := by omega
    have s3 : ¬ (c = 45) := by omega
    unfold Atoi
    simp only
    split
    · have hfast := atoiFastLoop_digits (c :: cs) hdig 0
      simp only [if_neg s1, List.length_cons, Nat.cast_zero] at hfast ⊢
      rw [if_neg (by omega), hfast]
      simp only [if_neg s3]
      rfl
    · have h64 : (c :: cs).foldl (fun n b => n * 10 + (b - 48)) 0 < 2 ^ 64 := by
        have : decimal (c :: cs) < 2 ^ 63 := h
        unfold decimal at this
        norm_num at this ⊢
        omega
      have hslow := parseUintLoop_digits (c :: cs) hdig 0 h64
      have hbody : (if c = 43 ∨ c = 45 then cs else c :: cs) = c :: cs := if_neg s2
      have hPU : ParseUint (c :: cs) = (decimal (c :: cs), none) := by
        unfold ParseUint
        rw [if_neg hne, hslow]
        rfl
      have hneg : decide (c = 45) = false := decide_eq_false s3
      have hlt : decide (decimal (c :: cs) ≥ 2 ^ 63) = false := decide_eq_false (by omega)
      unfold ParseInt
      simp only [hbody, hPU, hneg, hlt]
      rfl

theorem wrap64_of_fits (x : Int) (h0 : 0 ≤ x) (h1 : x < 2 ^ 63) : wrap64 x = x := by
  unfold wrap64
  norm_num at h1 ⊢
  omega

theorem extractDataPort_of_find (line p1 p2 : GoString) (n1 : IsNumber p1) (n2 : IsNumber p2)
    (h : FindStringSubmatch line = some (p1 ++ 44 :: p2)) :
    extractDataPort line = .ret (wrap64 (wrap64 ((Atoi p1).1 * 256) + (Atoi p2).1), none) := by
  unfold extractDataPort
  simp only [h, Split_one_sep 44 p1 p2 (IsNumber_no_comma _ n1) (IsNumber_no_comma _ n2)]
  rfl

/-! ## `extractDataPort` (C3, C4) -/

/-- Claim C3, as the code has it. For every line in which `p1` and `p2` are
the fifth and sixth numbers of the first substring of six comma-separated
unsigned decimal integers, and `p1 * 256 + p2` is below `2^63` (it fits in
`int`), `extractDataPort` returns the port `p1 * 256 + p2` and no error. -/
theorem extractDataPort_port_of_first_six (line p1 p2 : GoString) (h : FirstSix line p1 p2)
    (hfit : decimal p1 * 256 + decimal p2 < 2 ^ 63) :
    extractDataPort line = .ret (((decimal p1 * 256 + decimal p2 : Nat) : Int), none) := by
  have hfind := find_of_FirstSix line p1 p2 h
  obtain ⟨_, _, _, _, ⟨_, _, _, _, _, _, _, _, n1, n2, _⟩, _, _⟩ := h
  have hfit2 : decimal p1 * 256 + decimal p2 < 9223372036854775808 := by
    norm_num at hfit
    exact hfit
  rw [extractDataPort_of_find line p1 p2 n1 n2 hfind,
    Atoi_number p1 n1 (by norm_num; omega), Atoi_number p2 n2 (by norm_num; omega)]
  simp only
  rw [wrap64_of_fits ((decimal p1 : Int) * 256) (by positivity) (by norm_num; omega)]
  rw [wrap64_of_fits _ (by positivity) (by norm_num; omega)]
  push_cast
  rfl

/-- Witness of C3 as the code has it: the line of the specification, with the
numbers 17 and 36, gives the port 4388. -/
theorem extractDataPort_port_of_first_six_witness :
    extractDataPort (ascii "227 Entering Passive Mode (192,168,1,5,17,36).") =
      .ret (4388, none) :=
  extractDataPort_port_of_first_six (ascii "227 Entering Passive Mode (192,168,1,5,17,36).")
    (ascii "17") (ascii "36")
    (FirstSix_of_find _ _ _ ⟨by decide, by decide⟩ (by decide)) (by decide)

/-- Counterexample to C3 as stated: in the line below the first substring of
six numbers has the fifth number 99999999999999999999 and the sixth number 0,
and `extractDataPort` returns -256, not 99999999999999999999 * 256 + 0. -/
theorem extractDataPort_port_overflows :
    FirstSix (ascii "227 Entering Passive Mode (10,0,0,1,99999999999999999999,0).")
      (ascii "99999999999999999999") (ascii "0") ∧
    extractDataPort (ascii "227 Entering Passive Mode (10,0,0,1,99999999999999999999,0).") =
      .ret (-256, none) ∧
    ((decimal (ascii "99999999999999999999") * 256 + decimal (ascii "0") : Nat) : Int) ≠ -256 :=
  ⟨FirstSix_of_find _ _ _ ⟨by decide, by decide⟩ (by decide), by decide, by decide⟩

/-- Claim C4. For every line, `extractDataPort` returns an error exactly when
the line contains no substring of six comma-separated unsigned decimal
integers, and the text of that error contains the whole line. -/
theorem extractDataPort_fails_iff_no_six (line : GoString) :
    ((∃ port err, extractDataPort line = .ret (port, some err)) ↔ ¬ ContainsSix line) ∧
    (∀ port err, extractDataPort line = .ret (port, some err) → line <:+: err.Error) := by
  cases hf : FindStringSubmatch line with
  | none =>
    have hnot : ¬ ContainsSix line := by
      intro hc
      obtain ⟨g, hg⟩ := (find_some_iff_ContainsSix line).2 hc
      rw [hf] at hg
      exact absurd hg (by simp)
    have hr : extractDataPort line =
        .ret (0, some (.New (ascii "Cannot find data port in server output: " ++ line))) := by
      unfold extractDataPort
      simp only [hf]
    refine ⟨⟨fun _ => hnot, fun _ => ⟨_, _, hr⟩⟩, ?_⟩
    intro port err he
    rw [hr] at he
    simp only [Outcome.ret.injEq, Prod.mk.injEq, Option.some.injEq] at he
    rw [← he.2]
    exact ⟨ascii "Cannot find data port in server output: ", [], by simp [Error.Error]⟩
  | some g =>
    obtain ⟨pre, s, hps, hs, _⟩ := FindStringSubmatch_some line g hf
    obtain ⟨q1, q2, post, hsix, hg, _⟩ := matchPortAt_some s g hs
    have hc : ContainsSix line := ⟨pre, s, q1, q2, post, hps, hsix⟩
    obtain ⟨_, _, _, _, _, _, _, _, n1, n2, _⟩ := hsix
    have hr := extractDataPort_of_find line q1 q2 n1 n2 (by rw [hf, hg])
    have hno : ¬ ∃ port err, extractDataPort line = .ret (port, some err) := by
      rintro ⟨port, err, he⟩
      rw [hr] at he
      simp at he
    refine ⟨⟨fun h => absurd h hno, fun h => absurd hc h⟩, ?_⟩
    intro port err he
    exact absurd ⟨port, err, he⟩ hno

/-- Witness of C4: a line with four numbers only is refused, and the text of
the error contains it. -/
theorem extractDataPort_fails_iff_no_six_witness :
    ¬ ContainsSix (ascii "227 Entering Passive Mode (192,168,1,5).") ∧
    ascii "227 Entering Passive Mode (192,168,1,5)." <:+:
      (Error.New (ascii "Cannot find data port in server output: " ++
        ascii "227 Entering Passive Mode (192,168,1,5).")).Error :=
  ⟨(extractDataPort_fails_iff_no_six (ascii "227 Entering Passive Mode (192,168,1,5).")).1.1
      ⟨0, Error.New (ascii "Cannot find data port in server output: " ++
        ascii "227 Entering Passive Mode (192,168,1,5)."), by decide⟩,
    (extractDataPort_fails_iff_no_six (ascii "227 Entering Passive Mode (192,168,1,5).")).2
      0 _ (by decide)⟩

/-! ## What the code does where C7 and C9 fail -/

theorem Split_head (sep : Nat) (s : GoString) :
    ∃ parts, Split sep s = s.takeWhile (fun b => decide (b ≠ sep)) :: parts := by
  induction s with
  | nil => exact ⟨[], rfl⟩
  | cons b r ih =>
    obtain ⟨parts, hp⟩ := ih
    by_cases hb : b = sep
    · refine ⟨Split sep r, ?_⟩
      simp [Split, hb]
    · refine ⟨parts, ?_⟩
      simp [Split, hb, hp]

/-- The host name kept by a successful `Dial` is the text of the address
before its first colon. -/
theorem Dial_hostname_first_colon (host : GoString) (env : DialEnv) (c : Connection)
    (err : Option Error) (h : (Dial host env).out = .ret (some c, err)) :
    c.hostname = host.takeWhile (fun b => decide (b ≠ 58)) ∧ c.control = host ∧ err = none := by
  obtain ⟨parts, hp⟩ := Split_head 58 host
  unfold Dial at h
  simp only [hp, index, List.get?_cons_zero] at h
  repeat' split at h
  all_goals
    simp only [Outcome.ret.injEq, Prod.mk.injEq, Option.some.injEq, reduceCtorEq,
      false_and] at h
  obtain ⟨h1, h2⟩ := h
  subst h1
  exact ⟨rfl, rfl, h2.symm⟩

theorem store_all (f : FileState) (data : GoString) (h : f.offset ≤ f.content.length) :
    (f.store data data.length).offset = f.offset + data.length ∧
    (f.store data data.length).offset ≤ (f.store data data.length).content.length ∧
    (f.store data data.length).content.take (f.store data data.length).offset =
      f.content.take f.offset ++ data ∧
    ∀ k, (f.store data data.length).content.drop ((f.store data data.length).offset + k) =
      f.content.drop (f.offset + data.length + k) := by
  have hl : (f.content.take f.offset ++ data).length = f.offset + data.length := by
    simp [List.length_take, Nat.min_eq_left h]
  have hs : f.store data data.length =
      ⟨f.content.take f.offset ++ data ++ f.content.drop (f.offset + data.length),
        f.offset + data.length⟩ := by
    simp only [FileState.store, List.take_length]
  rw [hs]
  refine ⟨rfl, ?_, ?_, ?_⟩
  · show f.offset + data.length ≤ _
    simp only [List.length_append, List.length_take, List.length_drop]
    omega
  · show List.take (f.offset + data.length) _ = _
    rw [← hl]
    exact List.take_left' rfl
  · intro k
    show List.drop (f.offset + data.length + k) _ = _
    rw [← hl, ← List.drop_drop, List.drop_left' rfl, List.drop_drop, hl]

/-- The copy loop without a read or write error: the streamed bytes replace
the content of the file from the offset on, and what the file held beyond
them stays. -/
theorem copyLoop_content (dest final : GoString) (reads : List GoString) :
    ∀ f : FileState, f.offset ≤ f.content.length →
      copyLoop dest (final, .EOF) reads f [] =
        (⟨f.content.take f.offset ++ (reads.flatten ++ final) ++
            f.content.drop (f.offset + (reads.flatten ++ final).length),
          f.offset + (reads.flatten ++ final).length⟩, none) := by
  induction reads with
  | nil =>
    intro f hf
    obtain ⟨s1, s2, s3, s4⟩ := store_all f final hf
    by_cases h0 : final.length > 0
    · simp only [copyLoop, if_pos h0, FileState.Write, List.flatten_nil, List.nil_append, if_true]
      simp only [FileState.store, List.take_length]
    · have hnil : final = [] := List.length_eq_zero.1 (by omega)
      subst hnil
      simp only [copyLoop, List.length_nil, gt_iff_lt, Nat.lt_irrefl, if_false, if_true,
        List.flatten_nil, List.append_nil, Nat.add_zero, List.take_append_drop]
  | cons chunk reads ih =>
    intro f hf
    obtain ⟨s1, s2, s3, s4⟩ := store_all f chunk hf
    by_cases h0 : chunk.length > 0
    · simp only [copyLoop, if_pos h0, FileState.Write]
      rw [ih _ s2, s3, s1]
      have := s4 (reads.flatten ++ final).length
      rw [s1] at this
      rw [this]
      simp only [List.flatten_cons, List.length_append, List.append_assoc, Prod.mk.injEq,
        FileState.mk.injEq, and_true]
      exact ⟨by rw [Nat.add_assoc], by rw [Nat.add_assoc]⟩
    · have hnil : chunk = [] := List.length_eq_zero.1 (by omega)
      subst hnil
      simp only [copyLoop, List.length_nil, gt_iff_lt, Nat.lt_irrefl, if_false]
      rw [ih f hf]
      simp

/-- The copy of `DownloadFile` into a file opened on the prior content `prior`
(empty for a new file), without a read or write error: the file holds the
streamed bytes, followed by the bytes of `prior` beyond their length. -/
theorem copyLoop_from_start (dest final prior : GoString) (reads : List GoString) :
    copyLoop dest (final, .EOF) reads ⟨prior, 0⟩ [] =
      (⟨(reads.flatten ++ final) ++ prior.drop (reads.flatten ++ final).length,
        (reads.flatten ++ final).length⟩, none) := by
  rw [copyLoop_content dest final reads ⟨prior, 0⟩ (Nat.zero_le _)]
  simp

end Ftp
